import Mathlib

/-!
Shallow embedding of `src/lazy.py` (allemangD/lazyloader): lazy import groups.

Python objects are identified by numeric ids.  `sys.modules` is an association
list from qualified names to entries, where the entry `Entry.halted` embeds the
`None` sentinel the code stores to halt direct imports, and `Entry.obj i` embeds
a reference to the module object with id `i`.  Module objects carry their class
(`VeryLazyModule` before first use, plain `ModuleType` after), their `__spec__`
data (name and `loader_state` group), and their `__dict__` as an association
list from attribute names to object ids.  External collaborators (the pip
subprocess, `importlib.resources` resource location, the report file, and the
genuine path-based import machinery) are oracles collected in `Env`.
-/

namespace Lazyloader

abbrev Name := String

abbrev Value := Nat

/-- Entry of the global registry `sys.modules`: either the `None` halt sentinel
written by `LazyImportGroup.lock`, or a reference to a module object. -/
inductive Entry where
  | halted : Entry
  | obj : Nat → Entry
  deriving DecidableEq

/-- Exceptions of the embedded fragment.  `haltedImport n` is the
`ModuleNotFoundError: import of n halted; None in sys.modules` raised by
the import machinery on a halted registry entry; it is distinguishable from a
plain `moduleNotFound`. -/
inductive PyErr where
  | haltedImport : Name → PyErr
  | moduleNotFound : Name → PyErr
  | attributeError : String → PyErr
  | keyError : Name → PyErr
  | resourceError : String → PyErr
  | jsonError : PyErr
  deriving DecidableEq

deriving instance DecidableEq for Except

/-- Lookup in an association list (Python dict access, first match). -/
def mlookup {α β : Type} [DecidableEq α] : List (α × β) → α → Option β
  | [], _ => none
  | (k, v) :: t, n => if k = n then some v else mlookup t n

/-- Keyed store into an association list (Python `d[k] = v`): replace the
existing binding in place, or append a fresh one. -/
def mset {α β : Type} [DecidableEq α] : List (α × β) → α → β → List (α × β)
  | [], n, v => [(n, v)]
  | (k, w) :: t, n, v => if k = n then (n, v) :: t else (k, w) :: mset t n v

/-- Keyed delete from an association list (Python `del d[k]`). -/
def mdel {α β : Type} [DecidableEq α] : List (α × β) → α → List (α × β)
  | [], _ => []
  | (k, w) :: t, n => if k = n then mdel t n else (k, w) :: mdel t n

/-- The Python class of a module object: `VeryLazyModule` (placeholder
behavior) or plain `types.ModuleType`. -/
inductive ObjKind where
  | veryLazyModule : ObjKind
  | moduleType : ObjKind
  deriving DecidableEq

/-- A module object.  `specName` and `specGroup` embed `__spec__.name` and
`__spec__.loader_state` (the dunder attributes installed by the import
machinery are modelled as structure fields; `specGroup = none` for genuinely
loaded modules, whose loader state is not a group).  `dict` is the module's
`__dict__` of regular attributes, mapping attribute names to object ids. -/
structure ModuleObj where
  cls : ObjKind
  specName : Name
  specGroup : Option Nat
  dict : List (String × Value)
  deriving DecidableEq

/-- `LazyImportGroup.__init__` state: the `requires` locator string, the
optional label, the registered member proxies (`self.modules`, qualified name
to proxy object id), and the `need_install` idempotence flag (the spec's
`resolved` is its negation). -/
structure LazyImportGroup where
  requires : String
  name : Option String
  modules : List (Name × Nat)
  need_install : Bool
  deriving DecidableEq

/-- The process-wide state: `sys.modules`, the object heap, the group objects,
`sys.meta_path` restricted to the lazy finders (each identified by its group
id; the default path machinery is the fallback when none remains), the fresh-id
counter, and the observable trace of pip invocations and printed lines. -/
structure Sys where
  sysModules : List (Name × Entry)
  heap : List (Nat × ModuleObj)
  groups : List (Nat × LazyImportGroup)
  metaPath : List Nat
  nextId : Nat
  pipCalls : List (List String)
  printed : List String
  deriving DecidableEq

/-- Metadata of one entry of the dry-run report's `install` list. -/
structure PkgMeta where
  name : String
  version : String
  summary : String
  deriving DecidableEq

/-- The machine-readable JSON report produced by `pip --dry-run --report`. -/
structure Report where
  install : List PkgMeta
  deriving DecidableEq

/-- Result of `subprocess.run`: a completed process with its exit status
(stdout is captured by the source and discarded, so it is not modelled). -/
structure CompletedProcess where
  returncode : Int
  deriving DecidableEq

/-- Oracles for the external collaborators of the core: the package manager
(mapping a full argv to its completed process), resource location
(`find_spec` + `module_from_spec` + `importlib.resources`, returning the
requirement file path or the exception it raises), the temporary report file
name, the parsed report (`json.load`, which may raise), and the genuine import
machinery's loader (the `__dict__` a real load of a name would produce, or
`none` when the name is not importable). -/
structure Env where
  manager : List String → CompletedProcess
  locate : String → String → Except PyErr String
  reportPath : String
  reportJson : Except PyErr Report
  realLoad : Name → Option (List (String × Value))

def EXTRA_PIP_ARGS : List String := ["--quiet"]

/-- `pip(args)`: runs `subprocess.run(["pip"] + args, stdout=subprocess.PIPE)`.
The source passes no `check=True` and ignores the returned process, so the
call returns `None` (here `.ok ()`) whatever the exit status; no exception is
raised for a non-success exit. -/
def pip (mgr : List String → CompletedProcess) (args : List String) :
    Except PyErr Unit :=
  let _proc := mgr ("pip" :: args)
  .ok ()

/-- Argv (after the leading `pip`) of the dry-run invocation in `resolve`. -/
def dryRunArgs (reportPath requiresPath : String) : List String :=
  ["install"] ++ EXTRA_PIP_ARGS ++
    ["--dry-run", "--no-deps", "--report", reportPath, "-r", requiresPath]

/-- Argv (after the leading `pip`) of the real install invocation in
`resolve`. -/
def installArgs (requiresPath : String) : List String :=
  ["install"] ++ EXTRA_PIP_ARGS ++ ["-r", requiresPath]

/-- `"installing {name}=={version} ({summary})".format_map(entry["metadata"])`. -/
def installLine (e : PkgMeta) : String :=
  "installing " ++ e.name ++ "==" ++ e.version ++ " (" ++ e.summary ++ ")"

/-- Helper for `String.rpartition ":"`: returns the parts before and after the
last colon of the character list, or `none` when there is no colon. -/
def rpartitionColonAux : List Char → Option (List Char × List Char)
  | [] => none
  | c :: t =>
    match rpartitionColonAux t with
    | some (a, b) => some (c :: a, b)
    | none => if c = ':' then some ([], t) else none

/-- `s.rpartition(":")` restricted to the two components the source uses:
`pak, _, req = self.requires.rpartition(":")`.  When no colon occurs, Python
returns `("", "", s)`, so `pak = ""` and `req = s`. -/
def rpartitionColon (s : String) : String × String :=
  match rpartitionColonAux s.toList with
  | some (a, b) => (String.mk a, String.mk b)
  | none => ("", s)

/-- Loop of `LazyImportGroup.lock`: for each `(name, module)` member, read
`sys.modules[name]` (a `KeyError` if the name is absent) and overwrite the
entry with the halt sentinel when it `is` that very proxy object. -/
def lockGo : List (Name × Nat) → List (Name × Entry) →
    Except PyErr (List (Name × Entry))
  | [], m => .ok m
  | p :: t, m =>
    match mlookup m p.1 with
    | none => .error (.keyError p.1)
    | some e => lockGo t (if e = Entry.obj p.2 then mset m p.1 Entry.halted else m)

/-- `LazyImportGroup.lock`. -/
def LazyImportGroup.lock (g : LazyImportGroup) (sysM : List (Name × Entry)) :
    Except PyErr (List (Name × Entry)) :=
  lockGo g.modules sysM

/-- Loop of `LazyImportGroup.unlock`: delete each member name whose registry
entry is the halt sentinel (`name in sys.modules and sys.modules[name] is
None`). -/
def unlockGo : List (Name × Nat) → List (Name × Entry) → List (Name × Entry)
  | [], m => m
  | p :: t, m =>
    unlockGo t (if mlookup m p.1 = some Entry.halted then mdel m p.1 else m)

/-- `LazyImportGroup.unlock`. -/
def LazyImportGroup.unlock (g : LazyImportGroup) (sysM : List (Name × Entry)) :
    List (Name × Entry) :=
  unlockGo g.modules sysM

/-- `LazyImportGroup.register(module)`:
`self.modules[module.__spec__.name] = module`. -/
def LazyImportGroup.register (g : LazyImportGroup) (nm : Name) (mid : Nat) :
    LazyImportGroup :=
  { g with modules := mset g.modules nm mid }

/-- Outcome of one `LazyImportGroup.resolve` call: the group object's state on
exit, the pip invocations performed (full argv each), the lines printed, and
the exception propagated, if any.  The group is returned unchanged when an
exception escapes, since the source only assigns `self.need_install` on the
final line. -/
structure ResolveResult where
  group : LazyImportGroup
  calls : List (List String)
  printed : List String
  err : Option PyErr
  deriving DecidableEq

/-- `LazyImportGroup.resolve`: no-op unless `need_install`; locate the
requirement resource (without executing the package), run the pip dry-run,
parse the report, print one line per pending package, run the real install
only when the `install` list is non-empty, and finally clear `need_install`.
The exit status of either pip invocation is never consulted (see `pip`). -/
def LazyImportGroup.resolve (env : Env) (g : LazyImportGroup) : ResolveResult :=
  if !g.need_install then ⟨g, [], [], none⟩
  else
    let pr := rpartitionColon g.requires
    match env.locate pr.1 pr.2 with
    | .error e => ⟨g, [], [], some e⟩
    | .ok requiresPath =>
      let dryCall := "pip" :: dryRunArgs env.reportPath requiresPath
      let _p1 := env.manager dryCall
      match env.reportJson with
      | .error e => ⟨g, [dryCall], [], some e⟩
      | .ok report =>
        let lines := report.install.map installLine
        if report.install.isEmpty then
          ⟨{ g with need_install := false }, [dryCall], lines, none⟩
        else
          let instCall := "pip" :: installArgs requiresPath
          let _p2 := env.manager instCall
          ⟨{ g with need_install := false }, [dryCall, instCall], lines, none⟩

/-- Heap read with a harmless default (a dangling id never occurs on states
reachable by the protocol; Python references cannot dangle). -/
def getObj (st : Sys) (i : Nat) : ModuleObj :=
  (mlookup st.heap i).getD ⟨.moduleType, "", none, []⟩

def setObj (st : Sys) (i : Nat) (m : ModuleObj) : Sys :=
  { st with heap := mset st.heap i m }

/-- Group store read with a harmless default. -/
def getGroup (st : Sys) (gid : Nat) : LazyImportGroup :=
  (mlookup st.groups gid).getD ⟨"", none, [], false⟩

def setGroup (st : Sys) (gid : Nat) (g : LazyImportGroup) : Sys :=
  { st with groups := mset st.groups gid g }

/-- A fresh placeholder module as produced by the import machinery from the
spec returned by `VeryLazyFinder.find_spec` and executed by
`VeryLazyLoader.exec_module` (which sets the class to `VeryLazyModule`). -/
def newProxy (nm : Name) (gid : Nat) : ModuleObj :=
  ⟨.veryLazyModule, nm, some gid, []⟩

/-- The import-statement / `importlib.import_module` semantics the module
plugs into (CPython's documented machinery, an external collaborator):
a halted (`None`) entry in `sys.modules` raises the distinguishable
`ModuleNotFoundError`, a present module is returned as-is, and a missing name
is resolved through `sys.meta_path` — a lazy finder, when one is active,
answers every name with a placeholder spec whose loader registers the new
proxy in its group and publishes it in `sys.modules`; otherwise the default
path machinery (`env.realLoad`) performs a genuine load. -/
def importName (env : Env) (st : Sys) (nm : Name) : Sys × Except PyErr Nat :=
  match mlookup st.sysModules nm with
  | some Entry.halted => (st, .error (.haltedImport nm))
  | some (Entry.obj m) => (st, .ok m)
  | none =>
    match st.metaPath with
    | gid :: _ =>
      let pid := st.nextId
      let g := (getGroup st gid).register nm pid
      { st with
        heap := mset st.heap pid (newProxy nm gid),
        groups := mset st.groups gid g,
        sysModules := mset st.sysModules nm (Entry.obj pid),
        nextId := st.nextId + 1 } |> fun st' => (st', .ok pid)
    | [] =>
      match env.realLoad nm with
      | none => (st, .error (.moduleNotFound nm))
      | some dict =>
        let rid := st.nextId
        { st with
          heap := mset st.heap rid ⟨.moduleType, nm, none, dict⟩,
          sysModules := mset st.sysModules nm (Entry.obj rid),
          nextId := st.nextId + 1 } |> fun st' => (st', .ok rid)

/-- `self.__dict__.update(other)`: store every binding of `other` into the
dict, in order, overwriting existing keys. -/
def dictUpdate : List (String × Value) → List (String × Value) →
    List (String × Value)
  | d, [] => d
  | d, p :: t => dictUpdate (mset d p.1 p.2) t

/-- `LazyImportGroup.__enter__`: `sys.meta_path.insert(0, self.finder)`. -/
def LazyImportGroup.enterScope (st : Sys) (gid : Nat) : Sys :=
  { st with metaPath := gid :: st.metaPath }

/-- Remove the first occurrence (`sys.meta_path.remove(self.finder)`). -/
def removeFirst : List Nat → Nat → List Nat
  | [], _ => []
  | x :: t, g => if x = g then t else x :: removeFirst t g

/-- `LazyImportGroup.__exit__`: remove this group's finder from
`sys.meta_path`, then `self.lock()` (whose `KeyError`, if any, propagates). -/
def LazyImportGroup.exitScope (st : Sys) (gid : Nat) : Sys × Option PyErr :=
  let st1 := { st with metaPath := removeFirst st.metaPath gid }
  match (getGroup st1 gid).lock st1.sysModules with
  | .error e => (st1, some e)
  | .ok m => ({ st1 with sysModules := m }, none)

/-- `VeryLazyModule.__getattr__` (only entered when normal attribute lookup
missed): set `self.__class__ = types.ModuleType`, then `group.unlock()`,
`group.resolve()` (exceptions propagate with the effects so far),
`self.__real_module__ = importlib.import_module(self.__spec__.name)`,
`self.__dict__.update(self.__real_module__.__dict__)`, and finally
`return getattr(self, attr)` — by now a plain dict lookup, raising
`AttributeError` when the attribute is still missing. -/
def VeryLazyModule.getattrImpl (env : Env) (st : Sys) (selfId : Nat)
    (attr : String) : Sys × Except PyErr Value :=
  let self0 := getObj st selfId
  let st1 := setObj st selfId { self0 with cls := .moduleType }
  match self0.specGroup with
  | none => (st1, .error (.attributeError attr))
  | some gid =>
    let g := getGroup st1 gid
    let st2 := { st1 with sysModules := g.unlock st1.sysModules }
    let r := LazyImportGroup.resolve env g
    let st3 := { st2 with
      groups := mset st2.groups gid r.group,
      pipCalls := st2.pipCalls ++ r.calls,
      printed := st2.printed ++ r.printed }
    match r.err with
    | some e => (st3, .error e)
    | none =>
      match importName env st3 self0.specName with
      | (st4, .error e) => (st4, .error e)
      | (st4, .ok rid) =>
        let selfNow := getObj st4 selfId
        let real := getObj st4 rid
        let d2 := dictUpdate (mset selfNow.dict "__real_module__" rid) real.dict
        let st5 := setObj st4 selfId { selfNow with dict := d2 }
        match mlookup d2 attr with
        | some v => (st5, .ok v)
        | none => (st5, .error (.attributeError attr))

/-- Attribute access `obj.attr` on a module object: the instance `__dict__` is
consulted first; on a miss, a plain `ModuleType` raises `AttributeError`,
while a `VeryLazyModule` enters `__getattr__`. -/
def getattrOn (env : Env) (st : Sys) (i : Nat) (attr : String) :
    Sys × Except PyErr Value :=
  let m := getObj st i
  match mlookup m.dict attr with
  | some v => (st, .ok v)
  | none =>
    match m.cls with
    | .moduleType => (st, .error (.attributeError attr))
    | .veryLazyModule => VeryLazyModule.getattrImpl env st i attr

/-- `real_module(module)`: `getattr(module, "__real_module__", module)`.  The
three-argument `getattr` returns the default only when the lookup raises
`AttributeError`; any other exception (and every side effect of a lookup that
entered `VeryLazyModule.__getattr__`) propagates. -/
def real_module (env : Env) (st : Sys) (i : Nat) : Sys × Except PyErr Nat :=
  match getattrOn env st i "__real_module__" with
  | (st', .ok v) => (st', .ok v)
  | (st', .error (.attributeError _)) => (st', .ok i)
  | (st', .error e) => (st', .error e)

/-- Iterated `resolve` on one group (N successive invocations, possibly under
different external conditions), accumulating the pip invocations. -/
def resolveIter : List Env → LazyImportGroup →
    LazyImportGroup × List (List String)
  | [], g => (g, [])
  | env :: rest, g =>
    let r := LazyImportGroup.resolve env g
    let p := resolveIter rest r.group
    (p.1, r.calls ++ p.2)

/-- Number of real-install pip invocations in a trace (those without the
`--dry-run` flag). -/
def countInstalls (calls : List (List String)) : Nat :=
  (calls.filter (fun c => !c.contains "--dry-run")).length

/-- `LazyImportGroup.__init__(requires, name)`. -/
def LazyImportGroup.init (requires : String) (name : Option String) :
    LazyImportGroup :=
  ⟨requires, name, [], true⟩

/-- A process state with nothing loaded. -/
def initialSt : Sys := ⟨[], [], [], [], 0, [], []⟩

/-- The protocol run shared by the scenarios of §8 of the design: create a
group, enter its activation scope, import two names (producing the proxies
with ids 0 and 1), and exit the scope (locking the members). -/
def scenarioTwo (env : Env) (req n1 n2 : String) : Sys :=
  let st0 := setGroup initialSt 0 (LazyImportGroup.init req none)
  let st1 := LazyImportGroup.enterScope st0 0
  let st2 := (importName env st1 n1).1
  let st3 := (importName env st2 n2).1
  (LazyImportGroup.exitScope st3 0).1

/-- Concrete report entry used by the concrete runs below. -/
def sampleMeta : PkgMeta :=
  ⟨"fuzzywuzzy", "0.18.0", "Fuzzy string matching in python"⟩

/-- Concrete, well-behaved external world: the manager succeeds, the
requirement resource of `pak:requirements.txt` is located, the dry-run report
lists one pending package, and the genuine loader can produce `pak` and
`pak.bar`. -/
def sampleEnv : Env where
  manager := fun _ => ⟨0⟩
  locate := fun pak req =>
    if pak = "pak" then
      if req = "requirements.txt" then .ok "REQS" else .error (.resourceError req)
    else .error (.resourceError pak)
  reportPath := "RPT"
  reportJson := .ok ⟨[sampleMeta]⟩
  realLoad := fun n =>
    if n = "pak" then some [("dopak", 41)]
    else if n = "pak.bar" then some [("dobar", 42)]
    else none

/-- External world identical to `sampleEnv` except that resource location
fails (e.g. the requirement resource cannot be found). -/
def envBad : Env :=
  { sampleEnv with locate := fun _ _ => .error (.resourceError "x") }

/-- External world identical to `sampleEnv` except that the dry-run report
lists nothing to install. -/
def envEmpty : Env :=
  { sampleEnv with reportJson := .ok ⟨[]⟩ }

/-- Full argv of the dry-run pip invocation issued by `resolve`. -/
def dryCall (env : Env) (path : String) : List String :=
  "pip" :: dryRunArgs env.reportPath path

/-- Full argv of the real-install pip invocation issued by `resolve`. -/
def instCall (path : String) : List String :=
  "pip" :: installArgs path

theorem mlookup_mset_self {α β : Type} [DecidableEq α] (m : List (α × β))
    (k : α) (v : β) : mlookup (mset m k v) k = some v := by
  induction m with
  | nil => simp [mset, mlookup]
  | cons p t ih =>
    obtain ⟨a, b⟩ := p
    by_cases h : a = k
    · simp [mset, h, mlookup]
    · simp [mset, h, mlookup, ih]

theorem mlookup_mset_ne {α β : Type} [DecidableEq α] (m : List (α × β))
    (k k' : α) (v : β) (h : k ≠ k') :
    mlookup (mset m k v) k' = mlookup m k' := by
  induction m with
  | nil => simp [mset, mlookup, h]
  | cons p t ih =>
    obtain ⟨a, b⟩ := p
    by_cases ha : a = k
    · subst ha; simp [mset, mlookup, h]
    · simp [mset, ha, mlookup, ih]

theorem mlookup_mdel_self {α β : Type} [DecidableEq α] (m : List (α × β))
    (k : α) : mlookup (mdel m k) k = none := by
  induction m with
  | nil => simp [mdel, mlookup]
  | cons p t ih =>
    obtain ⟨a, b⟩ := p
    by_cases h : a = k
    · simp [mdel, h, ih]
    · simp [mdel, h, mlookup, ih]

theorem mlookup_mdel_ne {α β : Type} [DecidableEq α] (m : List (α × β))
    (k k' : α) (h : k ≠ k') : mlookup (mdel m k) k' = mlookup m k' := by
  induction m with
  | nil => simp [mdel]
  | cons p t ih =>
    obtain ⟨a, b⟩ := p
    by_cases ha : a = k
    · subst ha; simp [mdel, mlookup, h, ih]
    · simp [mdel, ha, mlookup, ih]

theorem mlookup_mset_isSome {α β : Type} [DecidableEq α] (m : List (α × β))
    (k k' : α) (v : β) (h : (mlookup m k').isSome) :
    (mlookup (mset m k v) k').isSome := by
  by_cases hk : k = k'
  · subst hk; simp [mlookup_mset_self]
  · rwa [mlookup_mset_ne m k k' v hk]

/-- Keys missing from an association list witness their absence pointwise. -/
theorem mlookup_none_notmem {α β : Type} [DecidableEq α] (m : List (α × β))
    (k : α) (h : mlookup m k = none) : ∀ q ∈ m, q.1 ≠ k := by
  induction m with
  | nil => simp
  | cons p t ih =>
    obtain ⟨a, b⟩ := p
    by_cases ha : a = k
    · simp [mlookup, ha] at h
    · intro q hq
      rcases List.mem_cons.mp hq with hq1 | hq1
      · simp [hq1, ha]
      · exact ih (by simpa [mlookup, ha] using h) q hq1

/-- `dictUpdate` does not touch keys absent from the source dict. -/
theorem dictUpdate_lookup_notin (src d : List (String × Value)) (a : String)
    (h : ∀ q ∈ src, q.1 ≠ a) :
    mlookup (dictUpdate d src) a = mlookup d a := by
  induction src generalizing d with
  | nil => simp [dictUpdate]
  | cons p t ih =>
    obtain ⟨k, v⟩ := p
    have hk : k ≠ a := h (k, v) (by simp)
    rw [dictUpdate, ih (mset d k v) fun q hq => h q (by simp [hq])]
    exact mlookup_mset_ne d k a v hk

/-- After `self.__dict__.update(src)`, every binding of a duplicate-free `src`
is found in the updated dict with its `src` value. -/
theorem dictUpdate_lookup_mem (src d : List (String × Value)) (a : String)
    (w : Value) (hnd : (src.map Prod.fst).Nodup) (h : mlookup src a = some w) :
    mlookup (dictUpdate d src) a = some w := by
  induction src generalizing d with
  | nil => simp [mlookup] at h
  | cons p t ih =>
    obtain ⟨k, v⟩ := p
    simp only [List.map_cons, List.nodup_cons] at hnd
    by_cases hk : k = a
    · subst hk
      simp only [mlookup, if_pos] at h
      rw [dictUpdate]
      rw [dictUpdate_lookup_notin t (mset d k v) k ?_]
      · rw [mlookup_mset_self, h]
      · intro q hq hqk
        exact hnd.1 (hqk ▸ List.mem_map_of_mem Prod.fst hq)
    · simp only [mlookup, if_neg hk] at h
      rw [dictUpdate]
      exact ih (mset d k v) hnd.2 h

/-- The error-free meaning of the `lock` loop, defined on the same traversal
order (used only to state what `lock` computes when it does not raise). -/
def lockSpec : List (Name × Nat) → List (Name × Entry) → List (Name × Entry)
  | [], m => m
  | p :: t, m =>
    lockSpec t (if mlookup m p.1 = some (Entry.obj p.2) then mset m p.1 Entry.halted else m)

/-- When every member name is present in the registry, the `lock` loop never
raises and computes `lockSpec`. -/
theorem lockGo_ok (L : List (Name × Nat)) (m : List (Name × Entry))
    (h : ∀ p ∈ L, (mlookup m p.1).isSome) :
    lockGo L m = .ok (lockSpec L m) := by
  induction L generalizing m with
  | nil => simp [lockGo, lockSpec]
  | cons p t ih =>
    obtain ⟨n, i⟩ := p
    have hn : (mlookup m n).isSome := h (n, i) (by simp)
    obtain ⟨e, he⟩ := Option.isSome_iff_exists.mp hn
    rw [lockGo, lockSpec, he]
    have hrest : ∀ q ∈ t,
        (mlookup (if e = Entry.obj i then mset m n Entry.halted else m) q.1).isSome := by
      intro q hq
      by_cases hei : e = Entry.obj i
      · simpa [hei] using mlookup_mset_isSome m n q.1 Entry.halted (h q (by simp [hq]))
      · simpa [hei] using h q (by simp [hq])
    by_cases hei : e = Entry.obj i
    · simpa [hei, he] using ih _ hrest
    · simpa [hei, he] using ih _ hrest

/-- The `lock` loop never turns a halted entry back into anything else. -/
theorem lockSpec_halted_stays (L : List (Name × Nat)) (m : List (Name × Entry))
    (n : Name) (h : mlookup m n = some Entry.halted) :
    mlookup (lockSpec L m) n = some Entry.halted := by
  induction L generalizing m with
  | nil => simpa [lockSpec] using h
  | cons p t ih =>
    obtain ⟨k, i⟩ := p
    simp only [lockSpec]
    by_cases hmatch : mlookup m k = some (Entry.obj i)
    · rw [if_pos hmatch]
      by_cases hk : k = n
      · subst hk
        rw [h] at hmatch
        simp at hmatch
      · exact ih _ (by rw [mlookup_mset_ne m k n Entry.halted hk]; exact h)
    · rw [if_neg hmatch]
      exact ih _ h

/-- A member entry that currently holds its very proxy object is overwritten
with the halt sentinel by the `lock` loop. -/
theorem lockSpec_hit (L : List (Name × Nat)) (m : List (Name × Entry))
    (n : Name) (i : Nat) (hmem : (n, i) ∈ L)
    (h : mlookup m n = some (Entry.obj i)) :
    mlookup (lockSpec L m) n = some Entry.halted := by
  induction L generalizing m with
  | nil => simp at hmem
  | cons p t ih =>
    obtain ⟨k, j⟩ := p
    simp only [lockSpec]
    rcases List.mem_cons.mp hmem with hhead | htail
    · obtain ⟨hn, hi⟩ := Prod.mk.injEq .. ▸ hhead
      · subst hn; subst hi
        rw [if_pos h]
        exact lockSpec_halted_stays t _ n (mlookup_mset_self m n Entry.halted)
    · by_cases hmatch : mlookup m k = some (Entry.obj j)
      · rw [if_pos hmatch]
        by_cases hk : k = n
        · subst hk
          exact lockSpec_halted_stays t _ k (mlookup_mset_self m k Entry.halted)
        · exact ih _ htail (by rw [mlookup_mset_ne m k n Entry.halted hk]; exact h)
      · rw [if_neg hmatch]
        exact ih _ htail h

/-- Every registry entry that is not a member entry currently holding its very
proxy — a genuinely loaded module under a member name, any entry under a
non-member name, and absent names alike — is left undisturbed by the `lock`
loop. -/
theorem lockSpec_miss (L : List (Name × Nat)) (m : List (Name × Entry))
    (n : Name) (h : ∀ i, (n, i) ∈ L → mlookup m n ≠ some (Entry.obj i)) :
    mlookup (lockSpec L m) n = mlookup m n := by
  induction L generalizing m with
  | nil => simp [lockSpec]
  | cons p t ih =>
    obtain ⟨k, j⟩ := p
    simp only [lockSpec]
    by_cases hmatch : mlookup m k = some (Entry.obj j)
    · by_cases hk : k = n
      · subst hk
        exact absurd hmatch (h j (by simp))
      · rw [if_pos hmatch]
        rw [ih _ fun i hi => by
          rw [mlookup_mset_ne m k n Entry.halted hk]
          exact h i (List.mem_cons_of_mem _ hi)]
        exact mlookup_mset_ne m k n Entry.halted hk
    · rw [if_neg hmatch]
      exact ih _ fun i hi => h i (List.mem_cons_of_mem _ hi)

/-- `resolve` is a no-op on an already-resolved group: the early return fires,
no pip invocation or print happens and no exception can arise. -/
theorem resolve_noop (env : Env) (g : LazyImportGroup)
    (h : g.need_install = false) :
    LazyImportGroup.resolve env g = ⟨g, [], [], none⟩ := by
  simp [LazyImportGroup.resolve, h]

/-- Success-path characterization of `resolve`: when the group still needs
installation, the resource is located and the report parses, `resolve` runs
the dry run, prints one line per pending package, runs the real install only
for a non-empty `install` list, clears `need_install` and raises nothing. -/
theorem resolve_success (env : Env) (g : LazyImportGroup) (path : String)
    (rep : Report) (hg : g.need_install = true)
    (hl : env.locate (rpartitionColon g.requires).1
      (rpartitionColon g.requires).2 = .ok path)
    (hr : env.reportJson = .ok rep) :
    LazyImportGroup.resolve env g =
      ⟨{ g with need_install := false },
       if rep.install.isEmpty then [dryCall env path]
       else [dryCall env path, instCall path],
       rep.install.map installLine, none⟩ := by
  simp only [LazyImportGroup.resolve, hg, Bool.not_true, Bool.false_eq_true,
    if_false, hl, hr, dryCall, instCall]
  by_cases h : rep.install.isEmpty <;> simp [h]

/-- When `resolve` propagates an exception, the group object is unchanged (in
particular `need_install` is still `true`, so a later access retries). -/
theorem resolve_err_group (env : Env) (g : LazyImportGroup) (e : PyErr)
    (h : (LazyImportGroup.resolve env g).err = some e) :
    (LazyImportGroup.resolve env g).group = g ∧ g.need_install = true := by
  by_cases hg : g.need_install
  · constructor
    · simp only [LazyImportGroup.resolve, hg, Bool.not_true, Bool.false_eq_true,
        if_false] at h ⊢
      cases hl : env.locate (rpartitionColon g.requires).1
          (rpartitionColon g.requires).2 with
      | error e' => simp [hl]
      | ok path =>
        cases hr : env.reportJson with
        | error e' => simp [hl, hr]
        | ok rep =>
          simp only [hl, hr] at h
          by_cases hc : rep.install.isEmpty <;> simp [hc] at h
    · exact hg
  · rw [resolve_noop env g (by simpa using hg)] at h
    simp at h

/-- An erroring `resolve` invocation performed no real-install pip call: the
exception arises at resource location (before any invocation) or at report
parsing (after only the dry run). -/
theorem resolve_err_calls (env : Env) (g : LazyImportGroup) (e : PyErr)
    (h : (LazyImportGroup.resolve env g).err = some e) :
    countInstalls (LazyImportGroup.resolve env g).calls = 0 := by
  by_cases hg : g.need_install
  · simp only [LazyImportGroup.resolve, hg, Bool.not_true, Bool.false_eq_true,
      if_false] at h ⊢
    cases hl : env.locate (rpartitionColon g.requires).1
        (rpartitionColon g.requires).2 with
    | error e' => simp [hl, countInstalls]
    | ok path =>
      cases hr : env.reportJson with
      | error e' =>
        simp only [hl, hr]
        rfl
      | ok rep =>
        simp only [hl, hr] at h
        by_cases hc : rep.install.isEmpty <;> simp [hc] at h
  · rw [resolve_noop env g (by simpa using hg)] at h
    simp at h

theorem countInstalls_append (a b : List (List String)) :
    countInstalls (a ++ b) = countInstalls a + countInstalls b := by
  simp [countInstalls, List.filter_append]

/-- The dry-run invocation always carries the `--dry-run` flag, so it is never
counted as a real install. -/
theorem countInstalls_dry (env : Env) (path : String) :
    countInstalls [dryCall env path] = 0 := rfl

/-- Any single `resolve` invocation performs at most one real-install call. -/
theorem resolve_installs_le_one (env : Env) (g : LazyImportGroup) :
    countInstalls (LazyImportGroup.resolve env g).calls ≤ 1 := by
  by_cases hg : g.need_install
  · simp only [LazyImportGroup.resolve, hg, Bool.not_true, Bool.false_eq_true,
      if_false]
    cases hl : env.locate (rpartitionColon g.requires).1
        (rpartitionColon g.requires).2 with
    | error e' => simp [countInstalls]
    | ok path =>
      cases hr : env.reportJson with
      | error e' =>
        show countInstalls [dryCall env path] ≤ 1
        rw [countInstalls_dry]
        exact Nat.zero_le 1
      | ok rep =>
        by_cases hc : rep.install.isEmpty
        · simp only [hc, if_true]
          show countInstalls [dryCall env path] ≤ 1
          rw [countInstalls_dry]
          exact Nat.zero_le 1
        · simp only [hc, if_false]
          show countInstalls [dryCall env path, instCall path] ≤ 1
          have : countInstalls [dryCall env path, instCall path] =
              countInstalls [dryCall env path] + countInstalls [instCall path] := by
            simpa using countInstalls_append [dryCall env path] [instCall path]
          rw [this, countInstalls_dry, Nat.zero_add]
          have hle := List.length_filter_le
            (fun c => !c.contains "--dry-run") [instCall path]
          simpa [countInstalls] using hle
  · rw [resolve_noop env g (by simpa using hg)]
    exact Nat.zero_le 1

/-- A `resolve` invocation that leaves the flag untouched (the no-op path or an
erroring run) performs no real install and does not change the group. -/
theorem resolve_still_unresolved (env : Env) (g : LazyImportGroup)
    (h : (LazyImportGroup.resolve env g).group.need_install = true) :
    (LazyImportGroup.resolve env g).group = g ∧
      countInstalls (LazyImportGroup.resolve env g).calls = 0 := by
  by_cases hg : g.need_install
  · cases herr : (LazyImportGroup.resolve env g).err with
    | some e =>
      exact ⟨(resolve_err_group env g e herr).1, resolve_err_calls env g e herr⟩
    | none =>
      exfalso
      simp only [LazyImportGroup.resolve, hg, Bool.not_true, Bool.false_eq_true,
        if_false] at h herr
      cases hl : env.locate (rpartitionColon g.requires).1
          (rpartitionColon g.requires).2 with
      | error e' => simp [hl] at herr
      | ok path =>
        cases hr : env.reportJson with
        | error e' => simp [hl, hr] at herr
        | ok rep =>
          simp only [hl, hr] at h
          by_cases hc : rep.install.isEmpty <;> simp [hc] at h
  · have hg' : g.need_install = false := by simpa using hg
    rw [resolve_noop env g hg']
    exact ⟨rfl, rfl⟩

/-- Iterated resolution performs at most one real install when the group still
needs one, and none at all when it is already resolved. -/
theorem resolveIter_installs (envs : List Env) (g : LazyImportGroup) :
    countInstalls (resolveIter envs g).2 ≤ if g.need_install then 1 else 0 := by
  induction envs generalizing g with
  | nil => simp [resolveIter, countInstalls]
  | cons env rest ih =>
    simp only [resolveIter, countInstalls_append]
    by_cases hg : g.need_install
    · simp only [hg, if_true]
      cases hafter : (LazyImportGroup.resolve env g).group.need_install with
      | true =>
        obtain ⟨-, hzero⟩ := resolve_still_unresolved env g hafter
        have := ih (LazyImportGroup.resolve env g).group
        rw [hafter, if_pos rfl] at this
        omega
      | false =>
        have h1 := resolve_installs_le_one env g
        have := ih (LazyImportGroup.resolve env g).group
        rw [hafter, if_neg (by simp)] at this
        omega
    · have hg' : g.need_install = false := by simpa using hg
      rw [resolve_noop env g hg']
      have := ih g
      rw [hg', if_neg (by simp)] at this
      simpa [hg', countInstalls] using this

/-- Effect of the protocol run: after entering the scope, importing two
distinct names (which answers both with registered placeholders) and exiting
the scope, the finder is gone, both proxies are registered in the group, and
both registry entries have been replaced with the halt sentinel. -/
theorem scenarioTwo_eq (env : Env) (req n1 n2 : String) (h : n1 ≠ n2) :
    scenarioTwo env req n1 n2 =
      ⟨[(n1, Entry.halted), (n2, Entry.halted)],
       [(0, ⟨.veryLazyModule, n1, some 0, []⟩),
        (1, ⟨.veryLazyModule, n2, some 0, []⟩)],
       [(0, ⟨req, none, [(n1, 0), (n2, 1)], true⟩)],
       [], 2, [], []⟩ := by
  simp [scenarioTwo, setGroup, initialSt, LazyImportGroup.init,
    LazyImportGroup.enterScope, importName, mlookup, mset, getGroup,
    LazyImportGroup.register, newProxy, LazyImportGroup.exitScope, removeFirst,
    LazyImportGroup.lock, lockGo, h, Ne.symm h]

/-- The process state after the first triggering access on the proxy of `n1`
in the two-member scenario: `n1` is genuinely loaded under the fresh id 2,
`n2` has been unlocked out of the registry, the proxy has become a plain
module carrying the real module's state plus the `__real_module__` reference,
and the group is resolved. -/
def afterFirstUse (env : Env) (req n1 n2 path : String) (rep : Report)
    (rd1 : List (String × Value)) : Sys :=
  ⟨[(n1, Entry.obj 2)],
   [(0, ⟨.moduleType, n1, some 0, dictUpdate [("__real_module__", 2)] rd1⟩),
    (1, ⟨.veryLazyModule, n2, some 0, []⟩),
    (2, ⟨.moduleType, n1, none, rd1⟩)],
   [(0, ⟨req, none, [(n1, 0), (n2, 1)], false⟩)],
   [], 3,
   if rep.install.isEmpty then [dryCall env path]
   else [dryCall env path, instCall path],
   rep.install.map installLine⟩

/-- First-use characterization: a triggering attribute access on the proxy of
`n1` after scope exit unlocks the members, resolves the group, genuinely loads
`n1`, copies its state into the proxy and returns the requested attribute's
value. -/
theorem firstUse_eq (env : Env) (req n1 n2 path : String) (rep : Report)
    (rd1 : List (String × Value)) (attr : String) (v : Value)
    (h12 : n1 ≠ n2)
    (hl : env.locate (rpartitionColon req).1 (rpartitionColon req).2 = .ok path)
    (hr : env.reportJson = .ok rep)
    (hld : env.realLoad n1 = some rd1)
    (hnd : (rd1.map Prod.fst).Nodup)
    (hattr : mlookup rd1 attr = some v) :
    getattrOn env (scenarioTwo env req n1 n2) 0 attr =
      (afterFirstUse env req n1 n2 path rep rd1, .ok v) := by
  rw [scenarioTwo_eq env req n1 n2 h12]
  have hres := resolve_success env ⟨req, none, [(n1, 0), (n2, 1)], true⟩
    path rep rfl hl hr
  have hd2 := dictUpdate_lookup_mem rd1 [("__real_module__", 2)] attr v hnd hattr
  simp [getattrOn, VeryLazyModule.getattrImpl, getObj, setObj, getGroup,
    mlookup, mset, mdel, LazyImportGroup.unlock, unlockGo, importName,
    newProxy, LazyImportGroup.register, hres, hld, h12, Ne.symm h12, hd2,
    afterFirstUse]

/-- The process state after a subsequent triggering access on the sibling
proxy of `n2`: its real module is loaded under id 3 with no further pip
activity, since the group is already resolved. -/
def afterSecondUse (env : Env) (req n1 n2 path : String) (rep : Report)
    (rd1 rd2 : List (String × Value)) : Sys :=
  ⟨[(n1, Entry.obj 2), (n2, Entry.obj 3)],
   [(0, ⟨.moduleType, n1, some 0, dictUpdate [("__real_module__", 2)] rd1⟩),
    (1, ⟨.moduleType, n2, some 0, dictUpdate [("__real_module__", 3)] rd2⟩),
    (2, ⟨.moduleType, n1, none, rd1⟩),
    (3, ⟨.moduleType, n2, none, rd2⟩)],
   [(0, ⟨req, none, [(n1, 0), (n2, 1)], false⟩)],
   [], 4,
   if rep.install.isEmpty then [dryCall env path]
   else [dryCall env path, instCall path],
   rep.install.map installLine⟩

/-- A triggering access on the sibling proxy after the group has already been
resolved by another member: `unlock` finds nothing halted, `resolve` is a
no-op (no pip call), and the sibling's real module is loaded and forwarded. -/
theorem secondUse_eq (env : Env) (req n1 n2 path : String) (rep : Report)
    (rd1 rd2 : List (String × Value)) (attr2 : String) (w2 : Value)
    (h12 : n1 ≠ n2)
    (hld2 : env.realLoad n2 = some rd2)
    (hnd2 : (rd2.map Prod.fst).Nodup)
    (hattr2 : mlookup rd2 attr2 = some w2) :
    getattrOn env (afterFirstUse env req n1 n2 path rep rd1) 1 attr2 =
      (afterSecondUse env req n1 n2 path rep rd1 rd2, .ok w2) := by
  have hres := resolve_noop env ⟨req, none, [(n1, 0), (n2, 1)], false⟩ rfl
  have hd2 := dictUpdate_lookup_mem rd2 [("__real_module__", 3)] attr2 w2 hnd2 hattr2
  simp [getattrOn, VeryLazyModule.getattrImpl, getObj, setObj, getGroup,
    mlookup, mset, mdel, LazyImportGroup.unlock, unlockGo, importName,
    newProxy, LazyImportGroup.register, afterFirstUse, afterSecondUse,
    hres, hld2, h12, Ne.symm h12, hd2]

/-- Claim C2: for every group, invoking `resolve` any number of times performs
the real installation step at most once; `resolve` is a no-op whenever the
group is already resolved, and the resolved state is never left again (the
spec's `resolved` flag is `need_install`'s negation, so `need_install` goes
`true → false` at most once and never back). -/
theorem C2_resolve_at_most_one_install :
    (∀ (envs : List Env) (g : LazyImportGroup),
      countInstalls (resolveIter envs g).2 ≤ 1)
    ∧ (∀ (env : Env) (g : LazyImportGroup), g.need_install = false →
      LazyImportGroup.resolve env g = ⟨g, [], [], none⟩)
    ∧ (∀ (env : Env) (g : LazyImportGroup), g.need_install = false →
      (LazyImportGroup.resolve env g).group.need_install = false) := by
  refine ⟨fun envs g => ?_, fun env g h => resolve_noop env g h,
    fun env g h => by rw [resolve_noop env g h]; exact h⟩
  refine le_trans (resolveIter_installs envs g) ?_
  by_cases h : g.need_install <;> simp [h]

/-- Witness for C2 at concrete inputs: two successive resolves of a fresh
group perform at most one install, and a resolve of an already-resolved group
is a no-op. -/
theorem C2_witness :
    countInstalls (resolveIter [sampleEnv, sampleEnv]
      (LazyImportGroup.init "pak:requirements.txt" none)).2 ≤ 1
    ∧ LazyImportGroup.resolve sampleEnv
        ⟨"pak:requirements.txt", none, [], false⟩ =
      ⟨⟨"pak:requirements.txt", none, [], false⟩, [], [], none⟩ :=
  ⟨C2_resolve_at_most_one_install.1 [sampleEnv, sampleEnv]
      (LazyImportGroup.init "pak:requirements.txt" none),
   C2_resolve_at_most_one_install.2.1 sampleEnv
      ⟨"pak:requirements.txt", none, [], false⟩ rfl⟩

/-- Claim C7: when `resolve` fails partway (resource location or report
parsing raises), the group object is unchanged — in particular `need_install`
is still `true` (the spec's `resolved` flag remains false), no real install
was performed — and a subsequent invocation under working external conditions
retries and completes the resolution. -/
theorem C7_failed_resolve_leaves_group_retryable (env : Env)
    (g : LazyImportGroup) (e : PyErr)
    (h : (LazyImportGroup.resolve env g).err = some e) :
    (LazyImportGroup.resolve env g).group = g
    ∧ g.need_install = true
    ∧ countInstalls (LazyImportGroup.resolve env g).calls = 0
    ∧ ∀ (envR : Env) (path : String) (rep : Report),
        envR.locate (rpartitionColon g.requires).1
          (rpartitionColon g.requires).2 = .ok path →
        envR.reportJson = .ok rep →
        (LazyImportGroup.resolve envR
          (LazyImportGroup.resolve env g).group).err = none
        ∧ (LazyImportGroup.resolve envR
            (LazyImportGroup.resolve env g).group).group.need_install = false := by
  obtain ⟨h1, h2⟩ := resolve_err_group env g e h
  refine ⟨h1, h2, resolve_err_calls env g e h, fun envR path rep hl hr => ?_⟩
  rw [h1, resolve_success envR g path rep h2 hl hr]
  exact ⟨rfl, rfl⟩

/-- Witness for C7: a run whose resource location fails leaves the group
unchanged, and the retry with a working environment resolves it. -/
theorem C7_witness :
    (LazyImportGroup.resolve envBad
      (LazyImportGroup.init "pak:requirements.txt" none)).group =
      LazyImportGroup.init "pak:requirements.txt" none
    ∧ (LazyImportGroup.init "pak:requirements.txt" none).need_install = true
    ∧ (LazyImportGroup.resolve sampleEnv
        (LazyImportGroup.resolve envBad
          (LazyImportGroup.init "pak:requirements.txt" none)).group).err = none := by
  have h := C7_failed_resolve_leaves_group_retryable envBad
    (LazyImportGroup.init "pak:requirements.txt" none)
    (.resourceError "x") (by decide)
  exact ⟨h.1, h.2.1, (h.2.2.2 sampleEnv "REQS" ⟨[sampleMeta]⟩ (by decide) rfl).1⟩

/-- Claim C9: when the dry-run report's `install` list is empty, `resolve`
performs only the dry-run invocation (no real install) and still clears
`need_install` (sets the spec's `resolved` to true) without error. -/
theorem C9_empty_report_skips_install (env : Env) (g : LazyImportGroup)
    (path : String) (hg : g.need_install = true)
    (hl : env.locate (rpartitionColon g.requires).1
      (rpartitionColon g.requires).2 = .ok path)
    (hr : env.reportJson = .ok ⟨[]⟩) :
    LazyImportGroup.resolve env g =
      ⟨{ g with need_install := false }, [dryCall env path], [], none⟩
    ∧ countInstalls (LazyImportGroup.resolve env g).calls = 0 := by
  have h := resolve_success env g path ⟨[]⟩ hg hl hr
  simp only [List.isEmpty_nil, if_true, List.map_nil] at h
  exact ⟨h, by rw [h]; exact countInstalls_dry env path⟩

/-- Witness for C9 at concrete inputs. -/
theorem C9_witness :
    LazyImportGroup.resolve envEmpty
      (LazyImportGroup.init "pak:requirements.txt" none) =
      ⟨⟨"pak:requirements.txt", none, [], false⟩, [dryCall envEmpty "REQS"],
       [], none⟩
    ∧ countInstalls (LazyImportGroup.resolve envEmpty
        (LazyImportGroup.init "pak:requirements.txt" none)).calls = 0 :=
  C9_empty_report_skips_install envEmpty
    (LazyImportGroup.init "pak:requirements.txt" none) "REQS" rfl
    (by decide) rfl

/-- A package manager whose every invocation exits with status 1. -/
def failMgr : List String → CompletedProcess := fun _ => ⟨1⟩

/-- External world in which every pip invocation fails (exit status 1) while
resource location and the report file still behave. -/
def envFail : Env :=
  { sampleEnv with manager := failMgr }

/-- Counterexample to claim C4: the package-manager invocation exits with
status 1 (failure), yet `pip` returns normally — no `InstallationError` (nor
any exception) reaches the caller — and a full `resolve` under an
always-failing manager completes without error and marks the group
resolved. -/
theorem C4_counterexample :
    pip failMgr ["install", "--quiet", "-r", "REQS"] = .ok ()
    ∧ (LazyImportGroup.resolve envFail
        (LazyImportGroup.init "pak:requirements.txt" none)).err = none
    ∧ (LazyImportGroup.resolve envFail
        (LazyImportGroup.init "pak:requirements.txt" none)).group.need_install
        = false := by
  refine ⟨rfl, ?_, ?_⟩ <;> decide

/-- Claim C4 as amended: a non-success exit status of a package-manager
invocation raises nothing — `pip` ignores the completed process entirely, and
`resolve`'s entire outcome is independent of the manager's exit statuses (a
failed dry run can surface only indirectly, as a report-parse error; a failed
real install is silently ignored and the group is still marked resolved). -/
theorem C4_exit_status_ignored :
    (∀ (mgr : List String → CompletedProcess) (args : List String),
      pip mgr args = .ok ())
    ∧ (∀ (env : Env) (m1 m2 : List String → CompletedProcess)
        (g : LazyImportGroup),
      LazyImportGroup.resolve { env with manager := m1 } g =
        LazyImportGroup.resolve { env with manager := m2 } g) :=
  ⟨fun _ _ => rfl, fun _ _ _ _ => rfl⟩

/-- Counterexample to claim C6: `lock` on a group whose member name is absent
from the registry does not complete without error — the `sys.modules[name]`
read raises a `KeyError`. -/
theorem C6_counterexample :
    LazyImportGroup.lock ⟨"r", none, [("a", 0)], true⟩ [] =
      .error (.keyError "a") := by
  decide

/-- Claim C6 as amended: provided every member name is present in the
registry, `lock` completes without error and replaces with the halt sentinel
exactly those member entries currently holding that very proxy object,
leaving every other entry (a genuinely loaded module under a member name, or
any non-member entry) undisturbed; an absent member name instead makes `lock`
raise a `KeyError`. -/
theorem C6_lock_exact (g : LazyImportGroup) (sysM : List (Name × Entry))
    (hpresent : ∀ p ∈ g.modules, (mlookup sysM p.1).isSome) :
    g.lock sysM = .ok (lockSpec g.modules sysM)
    ∧ (∀ (n : Name) (i : Nat), (n, i) ∈ g.modules →
        mlookup sysM n = some (Entry.obj i) →
        mlookup (lockSpec g.modules sysM) n = some Entry.halted)
    ∧ (∀ n : Name, (∀ i : Nat, (n, i) ∈ g.modules →
        mlookup sysM n ≠ some (Entry.obj i)) →
        mlookup (lockSpec g.modules sysM) n = mlookup sysM n) :=
  ⟨lockGo_ok g.modules sysM hpresent,
   fun n i hm h => lockSpec_hit g.modules sysM n i hm h,
   fun n h => lockSpec_miss g.modules sysM n h⟩

/-- Witness for the amended C6: a member entry holding its proxy is halted, a
genuinely loaded entry under a member name is untouched, and a non-member
entry is untouched. -/
theorem C6_witness :
    LazyImportGroup.lock ⟨"r", none, [("a", 0), ("b", 1)], true⟩
      [("a", Entry.obj 0), ("b", Entry.obj 9), ("c", Entry.obj 3)] =
      .ok (lockSpec [("a", 0), ("b", 1)]
        [("a", Entry.obj 0), ("b", Entry.obj 9), ("c", Entry.obj 3)])
    ∧ mlookup (lockSpec [("a", 0), ("b", 1)]
        [("a", Entry.obj 0), ("b", Entry.obj 9), ("c", Entry.obj 3)]) "a" =
      some Entry.halted
    ∧ mlookup (lockSpec [("a", 0), ("b", 1)]
        [("a", Entry.obj 0), ("b", Entry.obj 9), ("c", Entry.obj 3)]) "b" =
      some (Entry.obj 9)
    ∧ mlookup (lockSpec [("a", 0), ("b", 1)]
        [("a", Entry.obj 0), ("b", Entry.obj 9), ("c", Entry.obj 3)]) "c" =
      some (Entry.obj 3) := by
  have h := C6_lock_exact ⟨"r", none, [("a", 0), ("b", 1)], true⟩
    [("a", Entry.obj 0), ("b", Entry.obj 9), ("c", Entry.obj 3)] (by decide)
  exact ⟨h.1, h.2.1 "a" 0 (by decide) (by decide),
    (h.2.2 "b" (by intro i hi; simp at hi; subst hi; decide)).trans (by decide),
    (h.2.2 "c" (by intro i hi; simp at hi)).trans (by decide)⟩

/-- Claim C1: the first triggering attribute access on a proxy in a group
unlocks all group members in the registry, resolves the group's shared
dependency set, genuinely loads the proxy's qualified name (object id 2),
copies the real module's externally visible state into the proxy and forwards
the requested attribute; afterwards every attribute present on the real
implementation agrees between proxy and real module, and the sibling proxy is
directly usable — its own first use succeeds with no further pip
invocation. -/
theorem C1_first_access_pipeline (env : Env) (req n1 n2 path : String)
    (rep : Report) (rd1 rd2 : List (String × Value)) (attr attr2 : String)
    (v w2 : Value)
    (h12 : n1 ≠ n2)
    (hl : env.locate (rpartitionColon req).1 (rpartitionColon req).2 = .ok path)
    (hr : env.reportJson = .ok rep)
    (hld : env.realLoad n1 = some rd1)
    (hnd : (rd1.map Prod.fst).Nodup)
    (hattr : mlookup rd1 attr = some v)
    (hld2 : env.realLoad n2 = some rd2)
    (hnd2 : (rd2.map Prod.fst).Nodup)
    (hattr2 : mlookup rd2 attr2 = some w2) :
    getattrOn env (scenarioTwo env req n1 n2) 0 attr =
      (afterFirstUse env req n1 n2 path rep rd1, .ok v)
    ∧ (getGroup (afterFirstUse env req n1 n2 path rep rd1) 0).need_install
        = false
    ∧ mlookup (afterFirstUse env req n1 n2 path rep rd1).sysModules n1 =
        some (Entry.obj 2)
    ∧ mlookup (afterFirstUse env req n1 n2 path rep rd1).sysModules n2 = none
    ∧ getObj (afterFirstUse env req n1 n2 path rep rd1) 2 =
        ⟨.moduleType, n1, none, rd1⟩
    ∧ (afterFirstUse env req n1 n2 path rep rd1).pipCalls =
        (LazyImportGroup.resolve env
          ⟨req, none, [(n1, 0), (n2, 1)], true⟩).calls
    ∧ (∀ (a : String) (w : Value), mlookup rd1 a = some w →
        getattrOn env (afterFirstUse env req n1 n2 path rep rd1) 0 a =
          (afterFirstUse env req n1 n2 path rep rd1, .ok w)
        ∧ getattrOn env (afterFirstUse env req n1 n2 path rep rd1) 2 a =
          (afterFirstUse env req n1 n2 path rep rd1, .ok w))
    ∧ getattrOn env (afterFirstUse env req n1 n2 path rep rd1) 1 attr2 =
        (afterSecondUse env req n1 n2 path rep rd1 rd2, .ok w2)
    ∧ (afterSecondUse env req n1 n2 path rep rd1 rd2).pipCalls =
        (afterFirstUse env req n1 n2 path rep rd1).pipCalls := by
  refine ⟨firstUse_eq env req n1 n2 path rep rd1 attr v h12 hl hr hld hnd hattr,
    rfl, ?_, ?_, rfl, ?_, ?_,
    secondUse_eq env req n1 n2 path rep rd1 rd2 attr2 w2 h12 hld2 hnd2 hattr2,
    rfl⟩
  · simp [afterFirstUse, mlookup]
  · simp [afterFirstUse, mlookup, h12]
  · rw [resolve_success env ⟨req, none, [(n1, 0), (n2, 1)], true⟩ path rep
      rfl hl hr]
    rfl
  · intro a w hw
    constructor
    · simp [getattrOn, getObj, afterFirstUse, mlookup,
        dictUpdate_lookup_mem rd1 [("__real_module__", 2)] a w hnd hw]
    · simp [getattrOn, getObj, afterFirstUse, mlookup, hw]

/-- Witness for C1 at concrete inputs: first use on the `pak` proxy returns
the real attribute and the sibling `pak.bar` is then usable without further
installation. -/
theorem C1_witness :
    getattrOn sampleEnv
      (scenarioTwo sampleEnv "pak:requirements.txt" "pak" "pak.bar") 0 "dopak" =
      (afterFirstUse sampleEnv "pak:requirements.txt" "pak" "pak.bar" "REQS"
        ⟨[sampleMeta]⟩ [("dopak", 41)], .ok 41)
    ∧ getattrOn sampleEnv
        (afterFirstUse sampleEnv "pak:requirements.txt" "pak" "pak.bar" "REQS"
          ⟨[sampleMeta]⟩ [("dopak", 41)]) 1 "dobar" =
      (afterSecondUse sampleEnv "pak:requirements.txt" "pak" "pak.bar" "REQS"
        ⟨[sampleMeta]⟩ [("dopak", 41)] [("dobar", 42)], .ok 42) := by
  have h := C1_first_access_pipeline sampleEnv "pak:requirements.txt" "pak"
    "pak.bar" "REQS" ⟨[sampleMeta]⟩ [("dopak", 41)] [("dobar", 42)]
    "dopak" "dobar" 41 42 (by decide) rfl rfl rfl (by decide) rfl rfl
    (by decide) rfl
  exact ⟨h.1, h.2.2.2.2.2.2.2.1⟩

/-- Claim C3: a halted registry entry makes direct import fail with the
distinguishable halted error (for as long as the sentinel is there); both
names registered during the scope are halted after scope exit; and after the
first member's first use, direct lookup of the used name and of its sibling
both succeed. -/
theorem C3_halted_lookup_until_first_use (env : Env) (req n1 n2 path : String)
    (rep : Report) (rd1 rd2 : List (String × Value)) (attr : String)
    (v : Value)
    (h12 : n1 ≠ n2)
    (hl : env.locate (rpartitionColon req).1 (rpartitionColon req).2 = .ok path)
    (hr : env.reportJson = .ok rep)
    (hld : env.realLoad n1 = some rd1)
    (hnd : (rd1.map Prod.fst).Nodup)
    (hattr : mlookup rd1 attr = some v)
    (hld2 : env.realLoad n2 = some rd2) :
    (∀ (envA : Env) (st : Sys) (n : Name),
      mlookup st.sysModules n = some Entry.halted →
      importName envA st n = (st, .error (.haltedImport n)))
    ∧ mlookup (scenarioTwo env req n1 n2).sysModules n1 = some Entry.halted
    ∧ mlookup (scenarioTwo env req n1 n2).sysModules n2 = some Entry.halted
    ∧ getattrOn env (scenarioTwo env req n1 n2) 0 attr =
        (afterFirstUse env req n1 n2 path rep rd1, .ok v)
    ∧ (importName env (afterFirstUse env req n1 n2 path rep rd1) n1).2 = .ok 2
    ∧ (importName env (afterFirstUse env req n1 n2 path rep rd1) n2).2 =
        .ok 3 := by
  refine ⟨?_, ?_, ?_,
    firstUse_eq env req n1 n2 path rep rd1 attr v h12 hl hr hld hnd hattr,
    ?_, ?_⟩
  · intro envA st n h
    simp [importName, h]
  · rw [scenarioTwo_eq env req n1 n2 h12]
    simp [mlookup]
  · rw [scenarioTwo_eq env req n1 n2 h12]
    simp [mlookup, Ne.symm h12]
  · simp [importName, afterFirstUse, mlookup]
  · simp [importName, afterFirstUse, mlookup, h12, Ne.symm h12, hld2]

/-- Witness for C3 at concrete inputs: direct import of locked `pak` raises
the halted error, and after first use the sibling imports fine. -/
theorem C3_witness :
    importName sampleEnv
      (scenarioTwo sampleEnv "pak:requirements.txt" "pak" "pak.bar") "pak" =
      (scenarioTwo sampleEnv "pak:requirements.txt" "pak" "pak.bar",
       .error (.haltedImport "pak"))
    ∧ (importName sampleEnv
        (afterFirstUse sampleEnv "pak:requirements.txt" "pak" "pak.bar" "REQS"
          ⟨[sampleMeta]⟩ [("dopak", 41)]) "pak.bar").2 = .ok 3 := by
  have h := C3_halted_lookup_until_first_use sampleEnv "pak:requirements.txt"
    "pak" "pak.bar" "REQS" ⟨[sampleMeta]⟩ [("dopak", 41)] [("dobar", 42)]
    "dopak" 41 (by decide) rfl rfl rfl (by decide) rfl rfl
  exact ⟨h.1 sampleEnv _ "pak" h.2.1, h.2.2.2.2.2⟩

/-- External world whose real module for `pak` itself defines an attribute
named `__real_module__` (the proxy machinery's bookkeeping name), pointing at
some unrelated object 99. -/
def envColl : Env :=
  { sampleEnv with realLoad := fun n =>
      if n = "pak" then some [("__real_module__", 99), ("dopak", 41)]
      else none }

/-- Counterexample to claim C8: when the real implementation legitimately
defines `__real_module__`, the `__dict__.update` in `__getattr__` overwrites
the proxy's bookkeeping reference (the source records it before copying), so
after first use `real_module` returns that unrelated object 99 — not the real
module, which is the genuinely imported object 2 — even though the forwarded
attribute access itself worked. -/
theorem C8_counterexample :
    (real_module envColl
      ((getattrOn envColl
        (scenarioTwo envColl "pak:requirements.txt" "pak" "pak.bar")
        0 "dopak").1) 0).2 = .ok 99
    ∧ mlookup ((getattrOn envColl
        (scenarioTwo envColl "pak:requirements.txt" "pak" "pak.bar")
        0 "dopak").1).sysModules "pak" = some (Entry.obj 2)
    ∧ (getattrOn envColl
        (scenarioTwo envColl "pak:requirements.txt" "pak" "pak.bar")
        0 "dopak").2 = .ok 41
    ∧ (99 : Nat) ≠ 2 := by
  decide

/-- Claim C8 as amended: provided the real implementation does not itself
define the bookkeeping attribute `__real_module__` (the design's namespacing
requirement), after a proxy's first use `real_module` of the proxy (id 0) is
exactly the genuinely imported real module (id 2, registered in the registry
under the proxy's name), and the proxy is never the same object as the real
implementation (distinct ids 0 and 2 throughout). -/
theorem C8_unwrap_is_real_after_use (env : Env) (req n1 n2 path : String)
    (rep : Report) (rd1 : List (String × Value)) (attr : String) (v : Value)
    (h12 : n1 ≠ n2)
    (hl : env.locate (rpartitionColon req).1 (rpartitionColon req).2 = .ok path)
    (hr : env.reportJson = .ok rep)
    (hld : env.realLoad n1 = some rd1)
    (hnd : (rd1.map Prod.fst).Nodup)
    (hattr : mlookup rd1 attr = some v)
    (hfree : mlookup rd1 "__real_module__" = none) :
    getattrOn env (scenarioTwo env req n1 n2) 0 attr =
      (afterFirstUse env req n1 n2 path rep rd1, .ok v)
    ∧ real_module env (afterFirstUse env req n1 n2 path rep rd1) 0 =
      (afterFirstUse env req n1 n2 path rep rd1, .ok 2)
    ∧ mlookup (afterFirstUse env req n1 n2 path rep rd1).sysModules n1 =
      some (Entry.obj 2)
    ∧ getObj (afterFirstUse env req n1 n2 path rep rd1) 2 =
      ⟨.moduleType, n1, none, rd1⟩
    ∧ (0 : Nat) ≠ 2 := by
  have hfree2 : mlookup (dictUpdate [("__real_module__", 2)] rd1)
      "__real_module__" = some 2 := by
    rw [dictUpdate_lookup_notin rd1 [("__real_module__", 2)] "__real_module__"
      (mlookup_none_notmem rd1 "__real_module__" hfree)]
    rfl
  refine ⟨firstUse_eq env req n1 n2 path rep rd1 attr v h12 hl hr hld hnd hattr,
    ?_, by simp [afterFirstUse, mlookup], rfl, by decide⟩
  simp [real_module, getattrOn, getObj, afterFirstUse, mlookup, hfree2]

/-- Witness for the amended C8 at concrete inputs. -/
theorem C8_witness :
    real_module sampleEnv
      (afterFirstUse sampleEnv "pak:requirements.txt" "pak" "pak.bar" "REQS"
        ⟨[sampleMeta]⟩ [("dopak", 41)]) 0 =
      (afterFirstUse sampleEnv "pak:requirements.txt" "pak" "pak.bar" "REQS"
        ⟨[sampleMeta]⟩ [("dopak", 41)], .ok 2)
    ∧ (0 : Nat) ≠ 2 := by
  have h := C8_unwrap_is_real_after_use sampleEnv "pak:requirements.txt" "pak"
    "pak.bar" "REQS" ⟨[sampleMeta]⟩ [("dopak", 41)] "dopak" 41
    (by decide) rfl rfl rfl (by decide) rfl rfl
  exact ⟨h.2.1, h.2.2.2.2⟩

/-- Counterexample to claim C5: `real_module` (the spec's `unwrap`) applied to
a not-yet-resolved proxy is not pure — the three-argument `getattr` it uses
enters `VeryLazyModule.__getattr__`, which mutates the proxy, the registry and
the group and runs pip. -/
theorem C5_counterexample :
    (real_module sampleEnv
      (scenarioTwo sampleEnv "pak:requirements.txt" "pak" "pak.bar") 0).1 ≠
      scenarioTwo sampleEnv "pak:requirements.txt" "pak" "pak.bar"
    ∧ (real_module sampleEnv
        (scenarioTwo sampleEnv "pak:requirements.txt" "pak" "pak.bar")
        0).1.pipCalls ≠
      (scenarioTwo sampleEnv "pak:requirements.txt" "pak" "pak.bar").pipCalls
    ∧ (getGroup (real_module sampleEnv
        (scenarioTwo sampleEnv "pak:requirements.txt" "pak" "pak.bar") 0).1
        0).need_install = false
    ∧ (getGroup (scenarioTwo sampleEnv "pak:requirements.txt" "pak" "pak.bar")
        0).need_install = true := by
  decide

/-- Claim C5 as amended: `real_module` returns the recorded
`__real_module__` reference when present and the object itself when the
object's lookup misses and its class is a plain module — in both cases with
no state change; only on a not-yet-resolved proxy does it instead trigger the
full first-use resolution (see the counterexample). -/
theorem C5_unwrap_pure_cases (env : Env) (st : Sys) (i : Nat) :
    (∀ r : Nat, mlookup (getObj st i).dict "__real_module__" = some r →
      real_module env st i = (st, .ok r))
    ∧ (mlookup (getObj st i).dict "__real_module__" = none →
      (getObj st i).cls = .moduleType → real_module env st i = (st, .ok i)) := by
  constructor
  · intro r h
    simp [real_module, getattrOn, h]
  · intro h hc
    simp [real_module, getattrOn, h, hc]

/-- A small resolved state: object 0 is a former proxy recording object 7 as
its real module; object 7 is a plain module. -/
def stPure : Sys :=
  ⟨[("m", Entry.obj 7)],
   [(0, ⟨.moduleType, "m", none, [("__real_module__", 7)]⟩),
    (7, ⟨.moduleType, "m", none, []⟩)],
   [], [], 8, [], []⟩

/-- Witness for the amended C5 at concrete inputs. -/
theorem C5_witness :
    real_module sampleEnv stPure 0 = (stPure, .ok 7)
    ∧ real_module sampleEnv stPure 7 = (stPure, .ok 7) :=
  ⟨(C5_unwrap_pure_cases sampleEnv stPure 0).1 7 rfl,
   (C5_unwrap_pure_cases sampleEnv stPure 7).2 rfl rfl⟩

/-- The process state after a first access on the proxy of `n1` whose group
resolution raised: the proxy has already relinquished placeholder behavior
(class is plain `ModuleType`, empty dict), the members were unlocked out of
the registry, the group is unchanged (still needing install), and the sibling
proxy still has its placeholder class. -/
def afterFailedFirstUse (env : Env) (req n1 n2 : String) : Sys :=
  ⟨[],
   [(0, ⟨.moduleType, n1, some 0, []⟩), (1, ⟨.veryLazyModule, n2, some 0, []⟩)],
   [(0, ⟨req, none, [(n1, 0), (n2, 1)], true⟩)], [], 2,
   (LazyImportGroup.resolve env ⟨req, none, [(n1, 0), (n2, 1)], true⟩).calls,
   (LazyImportGroup.resolve env ⟨req, none, [(n1, 0), (n2, 1)], true⟩).printed⟩

/-- Claim C10: the proxy drops its placeholder class before unlock/resolve
run, so when resolution raises during first access the exception propagates,
and that proxy never retries — every later access to a missing attribute
raises a plain `AttributeError` under any environment, while the group still
needs install and the sibling proxy keeps its placeholder class (it can still
trigger resolution). -/
theorem C10_failed_first_access_never_retries (env : Env)
    (req n1 n2 attr : String) (e : PyErr) (h12 : n1 ≠ n2)
    (herr : (LazyImportGroup.resolve env
      ⟨req, none, [(n1, 0), (n2, 1)], true⟩).err = some e) :
    getattrOn env (scenarioTwo env req n1 n2) 0 attr =
      (afterFailedFirstUse env req n1 n2, .error e)
    ∧ (getObj (afterFailedFirstUse env req n1 n2) 0).cls = .moduleType
    ∧ (getGroup (afterFailedFirstUse env req n1 n2) 0).need_install = true
    ∧ (getObj (afterFailedFirstUse env req n1 n2) 1).cls = .veryLazyModule
    ∧ (∀ (envA : Env) (a : String),
        getattrOn envA (afterFailedFirstUse env req n1 n2) 0 a =
          (afterFailedFirstUse env req n1 n2, .error (.attributeError a))) := by
  have hgrp := (resolve_err_group env ⟨req, none, [(n1, 0), (n2, 1)], true⟩
    e herr).1
  refine ⟨?_, rfl, rfl, rfl, ?_⟩
  · rw [scenarioTwo_eq env req n1 n2 h12]
    simp [getattrOn, VeryLazyModule.getattrImpl, getObj, setObj, getGroup,
      mlookup, mset, mdel, LazyImportGroup.unlock, unlockGo,
      afterFailedFirstUse, herr, hgrp, h12, Ne.symm h12]
  · intro envA a
    simp [getattrOn, getObj, afterFailedFirstUse, mlookup]

/-- Witness for C10 at concrete inputs: with failing resource location, the
first access propagates the error and a second access on the same proxy
raises a plain `AttributeError`. -/
theorem C10_witness :
    (getattrOn envBad
      (scenarioTwo envBad "pak:requirements.txt" "pak" "pak.bar")
      0 "dopak").2 = .error (.resourceError "x")
    ∧ getattrOn envBad
        (afterFailedFirstUse envBad "pak:requirements.txt" "pak" "pak.bar")
        0 "dopak" =
      (afterFailedFirstUse envBad "pak:requirements.txt" "pak" "pak.bar",
       .error (.attributeError "dopak")) := by
  have h := C10_failed_first_access_never_retries envBad
    "pak:requirements.txt" "pak" "pak.bar" "dopak" (.resourceError "x")
    (by decide) (by decide)
  exact ⟨by rw [h.1], h.2.2.2.2 envBad "dopak"⟩

end Lazyloader
